import Mathlib

/-
Verification of the "up" CLI (global package upgrader) against its
specification.  The development shallowly embeds the source files
src/utils/pm.ts, src/utils/registry.ts and src/cli.ts (plus the kly
upgrade tool): pure functions become Lean functions over lists of
characters (JavaScript strings are modelled through String.data so
that every definition reduces in the kernel), and effectful code is
parameterised by an explicit environment of collaborator functions
(process execution, regex matching, JSON parsing, HTTP fetch,
interactive prompts), each returning Except to model thrown errors.
-/

/-! ## Version comparator (src/utils/registry.ts, compareVersions)

JavaScript string primitives are modelled over List Char:
`split`, `trim`, `dropWhile` and `Number` are given structural
definitions so that the kernel can evaluate them.  `Number` on the
version components produced here is total: an empty component yields 0
(JS Number("") = 0), an all-digit component yields its value, and any
other component yields NaN, modelled as `none`.  Exotic JS numeric
forms (hex, exponents, signs, inner whitespace) do not occur in
version components and are mapped to NaN by this model. -/

def digitsToNat (cs : List Char) : Nat :=
  cs.foldl (fun n c => n * 10 + (c.toNat - '0'.toNat)) 0

/-- JS `Number(s)` restricted to version components: `none` models NaN. -/
def jsNumber (cs : List Char) : Option Nat :=
  if cs.isEmpty then some 0
  else if cs.all (fun c => c.isDigit) then some (digitsToNat cs)
  else none

/-- JS `x || 0` applied to a component: NaN (and an out-of-range access,
i.e. `undefined`) is falsy and becomes 0; a number keeps its value
(0 stays 0, so collapsing `some 0` and the falsy path is exact). -/
def jsOr0 : Option Nat → Nat
  | some n => n
  | none => 0

def splitOnCharAux (sep : Char) : List Char → List Char → List (List Char)
  | [], acc => [acc.reverse]
  | c :: cs, acc =>
    if c = sep then acc.reverse :: splitOnCharAux sep cs []
    else splitOnCharAux sep cs (c :: acc)

/-- JS `s.split(sep)` for a one-character separator. -/
def splitOnChar (sep : Char) (cs : List Char) : List (List Char) :=
  splitOnCharAux sep cs []

/-- `current.replace(/^[^0-9]+/, "")`: drop the leading run of
non-digit characters. -/
def cleanVersion (cs : List Char) : List Char :=
  cs.dropWhile (fun c => !c.isDigit)

/-- `clean.split(".").map(Number)` from compareVersions. -/
def versionParts (s : String) : List (Option Nat) :=
  (splitOnChar '.' (cleanVersion s.data)).map jsNumber

/-- The indexed comparison loop of compareVersions.  `fuel` counts the
remaining iterations (the source runs `i` from 0 while
`i < Math.max(currentParts.length, latestParts.length)`); a component
read past the end of a list is `undefined`, modelled by the `none`
default of `getD`, and both NaN and `undefined` are sent to 0 by the
`|| 0` fallback (`jsOr0`). -/
def compareFrom (currentParts latestParts : List (Option Nat)) (i fuel : Nat) : Bool :=
  match fuel with
  | 0 => false
  | Nat.succ fuel' =>
    let curr := jsOr0 (currentParts.getD i none)
    let lat := jsOr0 (latestParts.getD i none)
    if curr < lat then true
    else if lat < curr then false
    else compareFrom currentParts latestParts (i + 1) fuel'

/-- src/utils/registry.ts compareVersions(current, latest). -/
def compareVersions (current latest : String) : Bool :=
  if current.data.isEmpty || latest.data.isEmpty then false
  else
    let currentParts := versionParts current
    let latestParts := versionParts latest
    compareFrom currentParts latestParts 0 (max currentParts.length latestParts.length)

/-! ### Spec-modelled comparison (section 4.2 / testable property 1)

These definitions follow the wording of the specification, not the
source: strip any non-digit prefix, split on the dot separator into
numeric components (a component that is not a plain digit string has
numeric value 0 in this model, matching JS coercion), then compare
component-by-component left to right up to the longer sequence,
treating a missing component as 0; true iff at the first differing
position the latest component exceeds the current one, false when all
compared positions agree. -/

/-- Modelled from the spec: the numeric components of a version string. -/
def specComponents (s : String) : List Nat :=
  (splitOnChar '.' (s.data.dropWhile (fun c => !c.isDigit))).map
    (fun t => if t.isEmpty then 0 else if t.all (fun c => c.isDigit) then digitsToNat t else 0)

/-- Modelled from the spec: first-difference comparison of two numeric
component sequences, padding the shorter one with zeros.  The padding
cases are resolved so the recursion is structural: once the current
side is exhausted every current component is 0, so latest is newer iff
some remaining latest component is positive; once the latest side is
exhausted every latest component is 0, which can never exceed the
current one, so the answer is false. -/
def lexNewer : List Nat → List Nat → Bool
  | [], ls => ls.any (fun lat => 0 < lat)
  | _ :: _, [] => false
  | curr :: cs, lat :: ls =>
    if curr < lat then true
    else if lat < curr then false
    else lexNewer cs ls

/-- Modelled from the spec: `isNewer(current, latest)` as section 4.2
describes the component comparison. -/
def specIsNewer (current latest : String) : Bool :=
  lexNewer (specComponents current) (specComponents latest)

/-! ### Claim-modelled comparison for C10

C10 asserts that a NaN component "never decides the comparison: both
the greater-than and less-than tests at that position are false, so the
position acts as equal and comparison continues".  The definitions
below follow that wording: components keep their NaN (`none`) value, a
missing component is 0, and the two order tests are JS comparisons in
which NaN makes every test false. -/

/-- Modelled from claim C10: JS `a < b` where NaN compares false. -/
def nanFalseLt : Option Nat → Option Nat → Bool
  | some a, some b => a < b
  | _, _ => false

/-- Modelled from claim C10: the component at position `i`, keeping NaN
and treating only a missing component as 0. -/
def claimComponent (ps : List (Option Nat)) (i : Nat) : Option Nat :=
  if i < ps.length then ps.getD i none else some 0

/-- Modelled from claim C10: the comparison loop in which a NaN
position acts as equal and the loop continues. -/
def claimTenFrom (cs ls : List (Option Nat)) (i fuel : Nat) : Bool :=
  match fuel with
  | 0 => false
  | Nat.succ fuel' =>
    let curr := claimComponent cs i
    let lat := claimComponent ls i
    if nanFalseLt curr lat then true
    else if nanFalseLt lat curr then false
    else claimTenFrom cs ls (i + 1) fuel'

/-- Modelled from claim C10: compareVersions as the claim describes it. -/
def claimTenCompare (current latest : String) : Bool :=
  if current.data.isEmpty || latest.data.isEmpty then false
  else
    let currentParts := versionParts current
    let latestParts := versionParts latest
    claimTenFrom currentParts latestParts 0 (max currentParts.length latestParts.length)

/-! ## Package manager adapter (src/utils/pm.ts)

Effectful collaborators are modelled as an explicit environment:
`exec` is the promisified child_process exec (ok carries stdout, error
carries the thrown failure rendered as a string); the regex and JSON
library calls used by the listing parsers are likewise fields of the
environment, so every theorem below quantifies over their behaviour.
`stripTree` models `line.replace(/^[│├└─\s]+/, "")`; the three match
fields model `cleanLine.match(/^(.+?)@(.+)$/)`,
`cleanLine.match(/^(.+?)\s+(.+)$/)` and `item.match(/(.+)@(.+)/)`,
returning the two capture groups; `jsonNpm` and `jsonYarnLine` model
`JSON.parse` projected onto exactly the fields the source reads
(`data.dependencies` with each entry's optional `version`, and
`data.type` with `data.data?.body`). -/

inductive PackageManager where
  | npm
  | pnpm
  | yarn
  | bun
deriving DecidableEq, Repr

def pmName : PackageManager → String
  | .npm => "npm"
  | .pnpm => "pnpm"
  | .yarn => "yarn"
  | .bun => "bun"

structure GlobalPackage where
  name : String
  version : String
  pm : PackageManager
deriving DecidableEq, Repr

/-- `JSON.parse` of an npm dependencies entry: the `version` field the
source reads (`info.version`), absent when the JSON lacks it. -/
structure NpmInfo where
  version : Option String
deriving DecidableEq, Repr

/-- `JSON.parse` of the npm listing output, projected onto
`data.dependencies` (entry order models `Object.entries`). -/
structure NpmListJson where
  dependencies : Option (List (String × NpmInfo))
deriving DecidableEq, Repr

/-- `JSON.parse` of one yarn output line, projected onto `data.type`
and `data.data?.body` (the latter flattened into one optional list:
`none` when `data.data` or its `body` is missing/falsy). -/
structure YarnLineJson where
  type : String
  dataBody : Option (List String)
deriving DecidableEq, Repr

structure PmEnv where
  exec : String → Except String String
  stripTree : String → String
  matchBunLine : String → Option (String × String)
  matchPnpmLine : String → Option (String × String)
  matchYarnItem : String → Option (String × String)
  jsonYarnLine : String → Except String YarnLineJson
  jsonNpm : String → Except String NpmListJson

def listManagers : List PackageManager := [.npm, .pnpm, .yarn, .bun]

/-- commandExists(command): `which` succeeds means present, a thrown
error means absent. -/
def commandExists (exec : String → Except String String) (command : String) : Bool :=
  match exec ("which " ++ command) with
  | .ok _ => true
  | .error _ => false

/-- detectPackageManagers(): probe each candidate in order, pushing the
ones whose probe succeeds. -/
def detectPackageManagers (exec : String → Except String String) : List PackageManager :=
  listManagers.foldl
    (fun available pm => if commandExists exec (pmName pm) then available ++ [pm] else available)
    []

/-- JS `trim()` (ASCII whitespace suffices for terminal output). -/
def trimChars (cs : List Char) : List Char :=
  ((cs.dropWhile Char.isWhitespace).reverse.dropWhile Char.isWhitespace).reverse

/-- `stdout.split("\n").filter((line) => line.trim())`. -/
def nonEmptyLines (stdout : String) : List String :=
  ((splitOnChar '\n' stdout.data).map String.mk).filter
    (fun line => !(trimChars line.data).isEmpty)

def listCommand : PackageManager → String
  | .npm => "npm list -g --depth=0 --json"
  | .pnpm => "pnpm list -g --depth 0"
  | .yarn => "yarn global list --json"
  | .bun => "bun pm ls -g"

/-- One line of the bun branch: strip tree glyphs, trim, match
`/^(.+?)@(.+)$/`, and push a record when both captures are truthy. -/
def bunLineParse (env : PmEnv) (pm : PackageManager) (line : String) : List GlobalPackage :=
  let cleanLine := String.mk (trimChars (env.stripTree line).data)
  match env.matchBunLine cleanLine with
  | some (m1, m2) =>
    if !m1.data.isEmpty && !m2.data.isEmpty then
      [{ name := String.mk (trimChars m1.data), version := String.mk (trimChars m2.data), pm := pm }]
    else []
  | none => []

def parseBun (env : PmEnv) (pm : PackageManager) (stdout : String) : List GlobalPackage :=
  (nonEmptyLines stdout).foldl (fun packages line => packages ++ bunLineParse env pm line) []

/-- One line of the pnpm branch: strip tree glyphs, trim, match
`/^(.+?)\s+(.+)$/`, and push a record when both captures are truthy. -/
def pnpmLineParse (env : PmEnv) (pm : PackageManager) (line : String) : List GlobalPackage :=
  let cleanLine := String.mk (trimChars (env.stripTree line).data)
  match env.matchPnpmLine cleanLine with
  | some (m1, m2) =>
    if !m1.data.isEmpty && !m2.data.isEmpty then
      [{ name := String.mk (trimChars m1.data), version := String.mk (trimChars m2.data), pm := pm }]
    else []
  | none => []

def parsePnpm (env : PmEnv) (pm : PackageManager) (stdout : String) : List GlobalPackage :=
  (nonEmptyLines stdout).foldl (fun packages line => packages ++ pnpmLineParse env pm line) []

/-- One body item of the yarn branch: match `/(.+)@(.+)/` and push the
captures verbatim when the match succeeds. -/
def yarnItemParse (env : PmEnv) (pm : PackageManager) (item : String) : List GlobalPackage :=
  match env.matchYarnItem item with
  | some (m1, m2) => [{ name := m1, version := m2, pm := pm }]
  | none => []

/-- One line of the yarn branch: JSON.parse under a per-line try/catch,
then walk `data.data.body` when `data.type === "list"`. -/
def yarnLineParse (env : PmEnv) (pm : PackageManager) (line : String) : List GlobalPackage :=
  match env.jsonYarnLine line with
  | .error _ => []
  | .ok data =>
    if data.type = "list" then
      match data.dataBody with
      | some body => body.foldl (fun acc item => acc ++ yarnItemParse env pm item) []
      | none => []
    else []

def parseYarn (env : PmEnv) (pm : PackageManager) (stdout : String) : List GlobalPackage :=
  (nonEmptyLines stdout).foldl (fun packages line => packages ++ yarnLineParse env pm line) []

/-- One dependencies entry of the npm branch: skip entries without a
truthy version. -/
def npmDepParse (pm : PackageManager) (entry : String × NpmInfo) : List GlobalPackage :=
  match entry.2.version with
  | some v => if !v.data.isEmpty then [{ name := entry.1, version := v, pm := pm }] else []
  | none => []

def parseNpmDeps (pm : PackageManager) (data : NpmListJson) : List GlobalPackage :=
  match data.dependencies with
  | none => []
  | some deps => deps.foldl (fun packages entry => packages ++ npmDepParse pm entry) []

/-- The body of getGlobalPackages's try block: exec the listing command
and parse its stdout per manager; a thrown exec error or (for npm) a
JSON.parse error propagates. -/
def getGlobalPackagesTry (env : PmEnv) (pm : PackageManager) : Except String (List GlobalPackage) :=
  match env.exec (listCommand pm) with
  | .error e => .error e
  | .ok stdout =>
    match pm with
    | .bun => .ok (parseBun env pm stdout)
    | .pnpm => .ok (parsePnpm env pm stdout)
    | .yarn => .ok (parseYarn env pm stdout)
    | .npm =>
      match env.jsonNpm stdout with
      | .error e => .error e
      | .ok data => .ok (parseNpmDeps pm data)

/-- getGlobalPackages(pm): the catch-all returns an empty array. -/
def getGlobalPackages (env : PmEnv) (pm : PackageManager) : List GlobalPackage :=
  match getGlobalPackagesTry env pm with
  | .ok packages => packages
  | .error _ => []

/-- JS `array.join(" ")`. -/
def joinSpace : List String → String
  | [] => ""
  | [s] => s
  | s :: rest => s ++ " " ++ joinSpace rest

def upgradeCommand : PackageManager → String → String
  | .npm, packages => "npm install -g " ++ packages
  | .pnpm, packages => "pnpm add -g " ++ packages
  | .yarn, packages => "yarn global add " ++ packages
  | .bun, packages => "bun add -g " ++ packages

/-- upgradePackages(pm, packageNames): early return on an empty list,
otherwise one batched shell command whose failure propagates.  The
first component is the returned promise (ok or thrown error), the
second the list of shell commands issued by the call. -/
def upgradePackages (env : PmEnv) (pm : PackageManager) (packageNames : List String) :
    Except String Unit × List String :=
  if packageNames.length = 0 then (.ok (), [])
  else
    let packages := joinSpace (packageNames.map (fun name => name ++ "@latest"))
    let command := upgradeCommand pm packages
    match env.exec command with
    | .ok _ => (.ok (), [command])
    | .error e => (.error e, [command])

/-! ## Registry client (src/utils/registry.ts, getLatestVersion) -/

/-- The body of the registry response projected onto the one field the
source reads (`data.version`). -/
structure VersionJson where
  version : Option String
deriving DecidableEq, Repr

/-- The fields of a fetch response that the source reads:
`response.ok` and `response.json()` (which may itself reject). -/
structure FetchResponse where
  ok : Bool
  json : Except String VersionJson
deriving Inhabited

def registryUrl (packageName : String) : String :=
  "https://registry.npmjs.org/" ++ packageName ++ "/latest"

/-- getLatestVersion(packageName): any rejection, non-ok status or
falsy version field yields null. -/
def getLatestVersion (fetch : String → Except String FetchResponse) (packageName : String) :
    Option String :=
  match fetch (registryUrl packageName) with
  | .error _ => none
  | .ok response =>
    if !response.ok then none
    else
      match response.json with
      | .error _ => none
      | .ok data =>
        match data.version with
        | some v => if v.data.isEmpty then none else some v
        | none => none

/-! ## Orchestrator (src/cli.ts run and the kly upgrade tool)

The interactive prompt collaborator is modelled by two environment
fields: `multiselect` receives the updatable packages (the option
values; labels and hints are transient presentation) and returns either
a cancel symbol or the selected values, and `confirm` receives the
selected count and returns cancel or an answer.  `run` returns the
observable outcome of the process: its exit code, every
upgradePackages invocation (manager with package names), every upgrade
shell command issued, the per-manager error lines logged, and the
closing message printed to the user. -/

structure PackageWithLatest extends GlobalPackage where
  latestVersion : String
  hasUpdate : Bool
deriving DecidableEq, Repr

inductive PromptResult (α : Type) where
  | cancel
  | value (v : α)
deriving DecidableEq, Repr

structure CliEnv extends PmEnv where
  fetch : String → Except String FetchResponse
  multiselect : List PackageWithLatest → PromptResult (List PackageWithLatest)
  confirm : Nat → PromptResult Bool

/-- The enumeration loop: concatenate getGlobalPackages over the
detected managers. -/
def enumerateGlobalPackages (env : PmEnv) (pms : List PackageManager) : List GlobalPackage :=
  pms.foldl (fun allPackages pm => allPackages ++ getGlobalPackages env pm) []

/-- The checking loop: resolve each package's latest version, dropping
packages whose lookup came back null, and compute hasUpdate. -/
def checkUpdates (fetch : String → Except String FetchResponse) (pkgs : List GlobalPackage) :
    List PackageWithLatest :=
  pkgs.foldl
    (fun acc pkg =>
      match getLatestVersion fetch pkg.name with
      | some latestVersion =>
        acc ++ [{ toGlobalPackage := pkg, latestVersion := latestVersion,
                  hasUpdate := compareVersions pkg.version latestVersion }]
      | none => acc)
    []

/-- The `Map<PackageManager, PackageWithLatest[]>` grouping loop
(insertion-ordered, appending to an existing group). -/
def groupByPM (pkgs : List PackageWithLatest) : List (PackageManager × List PackageWithLatest) :=
  pkgs.foldl
    (fun groups pkg =>
      if groups.any (fun g => g.1 = pkg.pm) then
        groups.map (fun g => if g.1 = pkg.pm then (g.1, g.2 ++ [pkg]) else g)
      else groups ++ [(pkg.pm, [pkg])])
    []

structure UpgradeState where
  processedCount : Nat
  failed : List String
  attempts : List (PackageManager × List String)
  commands : List String
deriving DecidableEq, Repr

/-- One iteration of the upgrade loop shared by cli.ts run and the kly
tool: call upgradePackages for the group and either count its packages
as processed or record the manager-tagged error.  `attempts` records
the upgradePackages call itself, `commands` the shell commands it
issued. -/
def upgradeStep (env : PmEnv) (st : UpgradeState)
    (group : PackageManager × List PackageWithLatest) : UpgradeState :=
  let packageNames := group.2.map (fun p => p.name)
  let call := upgradePackages env group.1 packageNames
  match call.1 with
  | .ok _ =>
    { processedCount := st.processedCount + group.2.length
      failed := st.failed
      attempts := st.attempts ++ [(group.1, packageNames)]
      commands := st.commands ++ call.2 }
  | .error e =>
    { processedCount := st.processedCount
      failed := st.failed ++ [pmName group.1 ++ ": " ++ e]
      attempts := st.attempts ++ [(group.1, packageNames)]
      commands := st.commands ++ call.2 }

def runUpgradeLoop (env : PmEnv) (groups : List (PackageManager × List PackageWithLatest)) :
    UpgradeState :=
  groups.foldl (upgradeStep env) { processedCount := 0, failed := [], attempts := [], commands := [] }

/-- The result object returned by the kly upgrade tool's execute. -/
structure ToolResult where
  success : Bool
  upgraded : Nat
  total : Nat
  failed : List String
  message : String
deriving DecidableEq, Repr

/-- The Upgrading and Reporting steps of the kly upgrade tool: group
the confirmed selection by manager, run the upgrade loop, and build the
result object (`success: failed.length === 0`). -/
def toolUpgradeAndReport (env : PmEnv) (packagesToUpgrade : List PackageWithLatest) : ToolResult :=
  let packagesByPM := groupByPM packagesToUpgrade
  let totalCount := packagesToUpgrade.length
  let st := runUpgradeLoop env packagesByPM
  { success := st.failed.length == 0
    upgraded := st.processedCount
    total := totalCount
    failed := st.failed
    message :=
      if st.failed.length == 0 then
        "Successfully upgraded " ++ toString st.processedCount ++ " package"
          ++ (if 1 < st.processedCount then "s" else "") ++ "!"
      else
        "Upgraded " ++ toString st.processedCount ++ "/" ++ toString totalCount
          ++ " packages. " ++ toString st.failed.length ++ " failed." }

/-- The observable outcome of cli.ts run(): process exit code,
upgradePackages invocations, shell upgrade commands, the per-manager
error lines passed to p.log.error, and the closing message. -/
structure RunResult where
  exitCode : Nat
  attempts : List (PackageManager × List String)
  commands : List String
  loggedErrors : List String
  outro : String
deriving DecidableEq, Repr

def runDetected (env : CliEnv) : List PackageManager :=
  detectPackageManagers env.exec

def runAllPackages (env : CliEnv) : List GlobalPackage :=
  enumerateGlobalPackages env.toPmEnv (runDetected env)

def runUpdatable (env : CliEnv) : List PackageWithLatest :=
  (checkUpdates env.fetch (runAllPackages env)).filter (fun pkg => pkg.hasUpdate)

/-- src/cli.ts run(): the straight-line state machine.  Each early
abort is a process.exit with the shown closing message; after the
upgrade loop the closing message is printed unconditionally. -/
def run (env : CliEnv) : RunResult :=
  if (runDetected env).length = 0 then
    { exitCode := 1, attempts := [], commands := [], loggedErrors := []
      outro := "No package managers (npm, pnpm, yarn, bun) found on your system" }
  else if (runAllPackages env).length = 0 then
    { exitCode := 0, attempts := [], commands := [], loggedErrors := []
      outro := "No global packages found to update" }
  else if (runUpdatable env).length = 0 then
    { exitCode := 0, attempts := [], commands := [], loggedErrors := []
      outro := "All packages are up to date!" }
  else
    match env.multiselect (runUpdatable env) with
    | .cancel =>
      { exitCode := 0, attempts := [], commands := [], loggedErrors := []
        outro := "Operation cancelled" }
    | .value selected =>
      if selected.length = 0 then
        { exitCode := 0, attempts := [], commands := [], loggedErrors := []
          outro := "No packages selected" }
      else
        match env.confirm selected.length with
        | .cancel =>
          { exitCode := 0, attempts := [], commands := [], loggedErrors := []
            outro := "Operation cancelled" }
        | .value answer =>
          if answer then
            let st := runUpgradeLoop env.toPmEnv (groupByPM selected)
            { exitCode := 0, attempts := st.attempts, commands := st.commands
              loggedErrors := st.failed
              outro := "Successfully upgraded all selected packages!" }
          else
            { exitCode := 0, attempts := [], commands := [], loggedErrors := []
              outro := "Operation cancelled" }

/-! ## Concrete environments used by witnesses and counterexamples -/

/-- An exec collaborator on which every spawned command fails. -/
def execAllFail : String → Except String String :=
  fun _ => Except.error "spawn failed"

/-- An exec collaborator with only npm installed: its probe and listing
succeed, every other command (including every upgrade) fails. -/
def execOnlyNpm : String → Except String String :=
  fun command =>
    if command = "which npm" then Except.ok "/usr/bin/npm"
    else if command = "npm list -g --depth=0 --json" then Except.ok "npm-list-stdout"
    else Except.error "boom"

/-- A JSON collaborator whose npm listing holds one package. -/
def jsonNpmOnePackage : String → Except String NpmListJson :=
  fun _ => Except.ok { dependencies := some [("left-pad", { version := some "1.0.0" })] }

/-- A registry collaborator that reports latest version 2.0.0. -/
def fetchLatestTwo : String → Except String FetchResponse :=
  fun _ => Except.ok { ok := true, json := Except.ok { version := some "2.0.0" } }

/-- A registry collaborator whose request always rejects. -/
def fetchNetworkFail : String → Except String FetchResponse :=
  fun _ => Except.error "network failure"

/-- A listing environment on which every command fails. -/
def envListFail : PmEnv :=
  { exec := execAllFail
    stripTree := fun s => s
    matchBunLine := fun _ => none
    matchPnpmLine := fun _ => none
    matchYarnItem := fun _ => none
    jsonYarnLine := fun _ => Except.error "unused"
    jsonNpm := fun _ => Except.error "unused" }

/-- A listing environment on which bun reports one global package. -/
def envBunOne : PmEnv :=
  { exec := fun _ => Except.ok "left-pad@1.0.0"
    stripTree := fun s => s
    matchBunLine := fun _ => some ("left-pad", "1.0.0")
    matchPnpmLine := fun _ => none
    matchYarnItem := fun _ => none
    jsonYarnLine := fun _ => Except.error "unused"
    jsonNpm := fun _ => Except.error "unused" }

/-- A full CLI environment: npm only, one package with an update, and
a user who cancels the multi-select prompt. -/
def envCancelSelect : CliEnv :=
  { exec := execOnlyNpm
    stripTree := fun s => s
    matchBunLine := fun _ => none
    matchPnpmLine := fun _ => none
    matchYarnItem := fun _ => none
    jsonYarnLine := fun _ => Except.error "unused"
    jsonNpm := jsonNpmOnePackage
    fetch := fetchLatestTwo
    multiselect := fun _ => PromptResult.cancel
    confirm := fun _ => PromptResult.cancel }

/-- A full CLI environment: npm only, one package with an update, the
user selects everything and confirms, and the batched npm upgrade
command fails. -/
def envUpgradeFail : CliEnv :=
  { exec := execOnlyNpm
    stripTree := fun s => s
    matchBunLine := fun _ => none
    matchPnpmLine := fun _ => none
    matchYarnItem := fun _ => none
    jsonYarnLine := fun _ => Except.error "unused"
    jsonNpm := jsonNpmOnePackage
    fetch := fetchLatestTwo
    multiselect := fun options => PromptResult.value options
    confirm := fun _ => PromptResult.value true }



/-! ## Theorems -/

example : compareVersions "1.0.0" "1.0.1" = true := by decide
example : compareVersions "1.0.0" "2.0.0" = true := by decide
example : compareVersions "1.0.0" "1.0.0" = false := by decide
example : compareVersions "2.0.0" "1.0.0" = false := by decide
example : compareVersions "v1.0.0" "v1.0.1" = true := by decide
example : compareVersions "" "1.0.0" = false := by decide
example : compareVersions "1.0.0" "1.0.1-beta" = false := by decide
example : compareVersions "1.0.1-beta" "1.0.5" = true := by decide
example : compareVersions "1.0" "1.0.0.1" = true := by decide

/-! ### Comparator lemmas -/

theorem getD_tail_none (cs : List (Option Nat)) (i : Nat) :
    cs.getD (i + 1) none = cs.tail.getD i none := by
  cases cs <;> simp [List.getD]

theorem compareFrom_shift (fuel : Nat) :
    ∀ (cs ls : List (Option Nat)) (i : Nat),
      compareFrom cs ls (i + 1) fuel = compareFrom cs.tail ls.tail i fuel := by
  induction fuel with
  | zero => intro cs ls i; simp [compareFrom]
  | succ fuel ih =>
    intro cs ls i
    simp only [compareFrom, getD_tail_none, ih cs ls (i + 1)]

theorem lexNewer_nil_right (cs : List Nat) : lexNewer cs [] = false := by
  cases cs <;> simp [lexNewer]

theorem compareFrom_eq_lexNewer :
    ∀ (fuel : Nat) (cs ls : List (Option Nat)),
      cs.length ≤ fuel → ls.length ≤ fuel →
      compareFrom cs ls 0 fuel = lexNewer (cs.map jsOr0) (ls.map jsOr0) := by
  intro fuel
  induction fuel with
  | zero =>
    intro cs ls hc hl
    have hc0 : cs = [] := by
      cases cs with
      | nil => rfl
      | cons a as => simp at hc
    have hl0 : ls = [] := by
      cases ls with
      | nil => rfl
      | cons b bs => simp at hl
    subst hc0; subst hl0
    simp [compareFrom, lexNewer]
  | succ fuel ih =>
    intro cs ls hc hl
    cases cs with
    | nil =>
      cases ls with
      | nil =>
        simp only [compareFrom, List.getD, lexNewer, List.map_nil]
        simp [compareFrom_shift, ih [] [] (by simp) (by simp), lexNewer]
      | cons b bs =>
        have hb : bs.length ≤ fuel := by simpa using hl
        simp only [compareFrom, List.getD_nil, List.getD_cons_zero, List.map_nil,
          List.map_cons]
        have h0 : jsOr0 none = 0 := rfl
        simp only [h0]
        rw [compareFrom_shift]
        simp only [List.tail_nil, List.tail_cons]
        rw [ih [] bs (by simp) hb]
        by_cases hpos : 0 < jsOr0 b
        · simp [lexNewer, hpos]
        · have hz : jsOr0 b = 0 := by omega
          simp [lexNewer, hz]
    | cons a as =>
      have ha : as.length ≤ fuel := by simpa using hc
      cases ls with
      | nil =>
        simp only [compareFrom, List.getD_nil, List.getD_cons_zero, List.map_nil,
          List.map_cons]
        have h0 : jsOr0 none = 0 := rfl
        simp only [h0]
        rw [compareFrom_shift]
        simp only [List.tail_nil, List.tail_cons]
        rw [ih as [] ha (by simp)]
        by_cases hpos : 0 < jsOr0 a
        · simp [lexNewer, hpos, lexNewer_nil_right]
        · have hz : jsOr0 a = 0 := by omega
          simp [lexNewer, hz, lexNewer_nil_right]
      | cons b bs =>
        have hb : bs.length ≤ fuel := by simpa using hl
        simp only [compareFrom, List.getD_cons_zero, List.map_cons]
        rw [compareFrom_shift]
        simp only [List.tail_cons]
        rw [ih as bs ha hb]
        simp [lexNewer]

theorem jsOr0_jsNumber (t : List Char) :
    jsOr0 (jsNumber t) =
      (if t.isEmpty then 0 else if t.all (fun c => c.isDigit) then digitsToNat t else 0) := by
  by_cases h0 : t.isEmpty
  · simp [jsNumber, jsOr0, h0]
  · by_cases hd : t.all (fun c => c.isDigit)
    · simp [jsNumber, jsOr0, h0, hd]
    · simp [jsNumber, jsOr0, h0, hd]

theorem specComponents_eq_parts (s : String) :
    specComponents s = (versionParts s).map jsOr0 := by
  simp only [specComponents, versionParts, cleanVersion, List.map_map]
  apply List.map_congr_left
  intro t _
  simp [Function.comp, jsOr0_jsNumber]

/-! ### Claims C1 and C10: the version comparator -/

/-- C1 (amended: both inputs nonempty).  For every pair of nonempty
version strings, compareVersions(current, latest) agrees with the
spec's comparison: split each input on '.' after stripping any leading
non-digit prefix, take the numeric components, compare left to right
up to the longer sequence treating a missing component as 0, and
return true iff at the first differing position latest's component
exceeds current's, false when all compared positions are equal. -/
theorem claim1_compareVersions_refines_spec (current latest : String)
    (hc : current.data.isEmpty = false) (hl : latest.data.isEmpty = false) :
    compareVersions current latest = specIsNewer current latest := by
  rw [compareVersions]
  rw [hc, hl]
  simp only [Bool.or_false, Bool.false_eq_true, if_false]
  rw [compareFrom_eq_lexNewer _ _ _ (le_max_left _ _) (le_max_right _ _)]
  rw [specIsNewer, specComponents_eq_parts, specComponents_eq_parts]

/-- Witness for C1: the amended theorem applied at ("1.0.0", "1.0.1"). -/
theorem claim1_witness :
    compareVersions "1.0.0" "1.0.1" = specIsNewer "1.0.0" "1.0.1" :=
  claim1_compareVersions_refines_spec "1.0.0" "1.0.1" (by decide) (by decide)

/-- Counterexample for C1 as stated: at ("", "1.0.0") the defensive
empty-input check makes compareVersions return false, while the
claim's component comparison ([0] against [1,0,0]) says true. -/
theorem claim1_counterexample :
    compareVersions "" "1.0.0" = false ∧ specIsNewer "" "1.0.0" = true := by
  constructor
  · decide
  · decide

/-- C10 (amended).  A component with non-digit characters beyond the
leading position parses to NaN, but the loop's `|| 0` fallback coerces
NaN (which is falsy) to 0, so the position is compared as 0 rather
than skipped: compareVersions equals the first-difference comparison
of the jsOr0-coerced component lists.  In particular
compareVersions("1.0.0", "1.0.1-beta") = false (0 against 0 at the
third position), yet a NaN position can decide the comparison:
compareVersions("1.0.1-beta", "1.0.5") = true. -/
theorem claim10_nan_coerced_to_zero :
    (∀ current latest : String,
        current.data.isEmpty = false → latest.data.isEmpty = false →
        compareVersions current latest
          = lexNewer ((versionParts current).map jsOr0) ((versionParts latest).map jsOr0))
    ∧ jsNumber "0-beta".data = none
    ∧ jsOr0 none = 0
    ∧ compareVersions "1.0.0" "1.0.1-beta" = false
    ∧ compareVersions "1.0.1-beta" "1.0.5" = true := by
  refine ⟨?_, by decide, rfl, by decide, by decide⟩
  intro current latest hc hl
  rw [compareVersions]
  rw [hc, hl]
  simp only [Bool.or_false, Bool.false_eq_true, if_false]
  exact compareFrom_eq_lexNewer _ _ _ (le_max_left _ _) (le_max_right _ _)

/-- Witness for C10: the coercion equation applied at
("1.0.1-beta", "1.0.5"). -/
theorem claim10_witness :
    compareVersions "1.0.1-beta" "1.0.5"
      = lexNewer ((versionParts "1.0.1-beta").map jsOr0) ((versionParts "1.0.5").map jsOr0) :=
  claim10_nan_coerced_to_zero.1 "1.0.1-beta" "1.0.5" (by decide) (by decide)

/-- Counterexample for C10 as stated: under the claim's reading (a NaN
position acts as equal and never decides), "1.0.1-beta" against
"1.0.5" would compare false, but compareVersions returns true because
the NaN third component is coerced to 0 and 0 < 5 decides there. -/
theorem claim10_counterexample :
    claimTenCompare "1.0.1-beta" "1.0.5" = false
      ∧ compareVersions "1.0.1-beta" "1.0.5" = true := by
  constructor
  · decide
  · decide

/-! ### Helper lemmas for the push-style loops -/

theorem foldl_push_filter (p : PackageManager → Bool) :
    ∀ (l : List PackageManager) (init : List PackageManager),
      l.foldl (fun acc pm => if p pm then acc ++ [pm] else acc) init = init ++ l.filter p := by
  intro l
  induction l with
  | nil => intro init; simp
  | cons x xs ih =>
    intro init
    by_cases hx : p x
    · simp [List.foldl_cons, hx, ih, List.filter_cons]
    · simp [List.foldl_cons, hx, ih, List.filter_cons]

theorem mem_foldl_append {α β : Type} (f : α → List β) :
    ∀ (l : List α) (init : List β) (b : β),
      b ∈ l.foldl (fun acc a => acc ++ f a) init → b ∈ init ∨ ∃ a, a ∈ l ∧ b ∈ f a := by
  intro l
  induction l with
  | nil => intro init b h; exact Or.inl h
  | cons x xs ih =>
    intro init b h
    rcases ih (init ++ f x) b h with h' | ⟨a, ha, hb⟩
    · rcases List.mem_append.mp h' with h'' | h''
      · exact Or.inl h''
      · exact Or.inr ⟨x, List.mem_cons_self x xs, h''⟩
    · exact Or.inr ⟨a, List.mem_cons_of_mem x ha, hb⟩

theorem mem_bunLineParse (env : PmEnv) (pm : PackageManager) (line : String)
    (pkg : GlobalPackage) (h : pkg ∈ bunLineParse env pm line) : pkg.pm = pm := by
  unfold bunLineParse at h
  rcases hm : env.matchBunLine (String.mk (trimChars (env.stripTree line).data)) with _ | ⟨m1, m2⟩
  · simp [hm] at h
  · simp only [hm] at h
    by_cases hg : (!m1.data.isEmpty && !m2.data.isEmpty) = true
    · simp [hg] at h
      subst h; rfl
    · simp [hg] at h

theorem mem_pnpmLineParse (env : PmEnv) (pm : PackageManager) (line : String)
    (pkg : GlobalPackage) (h : pkg ∈ pnpmLineParse env pm line) : pkg.pm = pm := by
  unfold pnpmLineParse at h
  rcases hm : env.matchPnpmLine (String.mk (trimChars (env.stripTree line).data)) with _ | ⟨m1, m2⟩
  · simp [hm] at h
  · simp only [hm] at h
    by_cases hg : (!m1.data.isEmpty && !m2.data.isEmpty) = true
    · simp [hg] at h
      subst h; rfl
    · simp [hg] at h

theorem mem_yarnItemParse (env : PmEnv) (pm : PackageManager) (item : String)
    (pkg : GlobalPackage) (h : pkg ∈ yarnItemParse env pm item) : pkg.pm = pm := by
  unfold yarnItemParse at h
  rcases hm : env.matchYarnItem item with _ | ⟨m1, m2⟩
  · simp [hm] at h
  · simp only [hm] at h
    simp at h
    subst h; rfl

theorem mem_yarnLineParse (env : PmEnv) (pm : PackageManager) (line : String)
    (pkg : GlobalPackage) (h : pkg ∈ yarnLineParse env pm line) : pkg.pm = pm := by
  unfold yarnLineParse at h
  rcases hj : env.jsonYarnLine line with e | data
  · simp [hj] at h
  · simp only [hj] at h
    by_cases ht : data.type = "list"
    · rw [if_pos ht] at h
      rcases hb : data.dataBody with _ | body
      · simp [hb] at h
      · simp only [hb] at h
        rcases mem_foldl_append (yarnItemParse env pm) body [] pkg h with h' | ⟨item, _, hitem⟩
        · simp at h'
        · exact mem_yarnItemParse env pm item pkg hitem
    · rw [if_neg ht] at h; simp at h

theorem mem_npmDepParse (pm : PackageManager) (entry : String × NpmInfo)
    (pkg : GlobalPackage) (h : pkg ∈ npmDepParse pm entry) : pkg.pm = pm := by
  unfold npmDepParse at h
  rcases hv : entry.2.version with _ | v
  · simp [hv] at h
  · simp only [hv] at h
    by_cases hg : (!v.data.isEmpty) = true
    · simp [hg] at h
      subst h; rfl
    · simp [hg] at h

theorem mem_getGlobalPackagesTry (env : PmEnv) (pm : PackageManager)
    (packages : List GlobalPackage) (hok : getGlobalPackagesTry env pm = .ok packages)
    (pkg : GlobalPackage) (h : pkg ∈ packages) : pkg.pm = pm := by
  unfold getGlobalPackagesTry at hok
  rcases hx : env.exec (listCommand pm) with e | stdout
  · simp [hx] at hok
  · simp only [hx] at hok
    cases pm with
    | bun =>
      cases hok
      rcases mem_foldl_append (bunLineParse env .bun) (nonEmptyLines stdout) [] pkg h
        with h' | ⟨line, _, hline⟩
      · simp at h'
      · exact mem_bunLineParse env .bun line pkg hline
    | pnpm =>
      cases hok
      rcases mem_foldl_append (pnpmLineParse env .pnpm) (nonEmptyLines stdout) [] pkg h
        with h' | ⟨line, _, hline⟩
      · simp at h'
      · exact mem_pnpmLineParse env .pnpm line pkg hline
    | yarn =>
      cases hok
      rcases mem_foldl_append (yarnLineParse env .yarn) (nonEmptyLines stdout) [] pkg h
        with h' | ⟨line, _, hline⟩
      · simp at h'
      · exact mem_yarnLineParse env .yarn line pkg hline
    | npm =>
      rcases hj : env.jsonNpm stdout with e | data
      · simp [hj] at hok
      · simp only [hj] at hok
        cases hok
        unfold parseNpmDeps at h
        rcases hd : data.dependencies with _ | deps
        · rw [hd] at h; simp at h
        · rw [hd] at h
          rcases mem_foldl_append (npmDepParse .npm) deps [] pkg h with h' | ⟨entry, _, hentry⟩
          · simp at h'
          · exact mem_npmDepParse .npm entry pkg hentry

theorem mem_getGlobalPackages (env : PmEnv) (pm : PackageManager)
    (pkg : GlobalPackage) (h : pkg ∈ getGlobalPackages env pm) : pkg.pm = pm := by
  unfold getGlobalPackages at h
  rcases htry : getGlobalPackagesTry env pm with e | packages
  · rw [htry] at h; simp at h
  · rw [htry] at h
    exact mem_getGlobalPackagesTry env pm packages htry pkg h

/-! ### Claims C4, C7, C8, C9: the package manager adapter -/

/-- C8.  detectPackageManagers returns exactly the subset of the four
candidate managers whose `which` probe succeeds, with no duplicates,
and a probe that throws marks the manager as not present (it is never
fatal: detection still returns a list). -/
theorem claim8_detect_exactly_probed (exec : String → Except String String) :
    (detectPackageManagers exec).Nodup
    ∧ (∀ pm, pm ∈ detectPackageManagers exec ↔ commandExists exec (pmName pm) = true)
    ∧ (∀ pm e, exec ("which " ++ pmName pm) = .error e → pm ∉ detectPackageManagers exec) := by
  have hfilter : detectPackageManagers exec
      = listManagers.filter (fun pm => commandExists exec (pmName pm)) := by
    unfold detectPackageManagers
    rw [foldl_push_filter]
    simp
  have hmem : ∀ pm : PackageManager, pm ∈ listManagers := by
    intro pm; cases pm <;> decide
  refine ⟨?_, ?_, ?_⟩
  · rw [hfilter]
    exact List.Nodup.filter _ (by decide)
  · intro pm
    rw [hfilter, List.mem_filter]
    constructor
    · intro h; exact h.2
    · intro h; exact ⟨hmem pm, h⟩
  · intro pm e herr hmem'
    rw [hfilter, List.mem_filter] at hmem'
    have : commandExists exec (pmName pm) = false := by
      unfold commandExists
      rw [herr]
    rw [this] at hmem'
    simp at hmem'

/-- Witness for C8: with only the npm probe succeeding, a manager
whose probe throws (pnpm) is not detected. -/
theorem claim8_witness : PackageManager.pnpm ∉ detectPackageManagers execOnlyNpm :=
  (claim8_detect_exactly_probed execOnlyNpm).2.2 PackageManager.pnpm "boom" rfl

/-- C4.  For every manager, if the listing command invocation throws,
getGlobalPackages returns the empty sequence instead of propagating
the failure. -/
theorem claim4_listing_failure_yields_empty (env : PmEnv) (pm : PackageManager) (e : String)
    (h : env.exec (listCommand pm) = .error e) : getGlobalPackages env pm = [] := by
  unfold getGlobalPackages getGlobalPackagesTry
  rw [h]

/-- Witness for C4: an environment on which every spawned command
fails lists zero npm packages. -/
theorem claim4_witness : getGlobalPackages envListFail PackageManager.npm = [] :=
  claim4_listing_failure_yields_empty envListFail PackageManager.npm "spawn failed" rfl

/-- C7.  Every package record getGlobalPackages(pm) emits carries
manager field pm, and every package the orchestrator accumulates over
the detected managers is attributed to a detected manager. -/
theorem claim7_manager_attribution :
    (∀ (env : PmEnv) (pm : PackageManager) (pkg : GlobalPackage),
        pkg ∈ getGlobalPackages env pm → pkg.pm = pm)
    ∧ (∀ (env : CliEnv) (pkg : GlobalPackage),
        pkg ∈ runAllPackages env → pkg.pm ∈ runDetected env) := by
  constructor
  · exact mem_getGlobalPackages
  · intro env pkg h
    unfold runAllPackages enumerateGlobalPackages at h
    rcases mem_foldl_append (getGlobalPackages env.toPmEnv) (runDetected env) [] pkg h
      with h' | ⟨pm, hpm, hpkg⟩
    · simp at h'
    · rw [mem_getGlobalPackages env.toPmEnv pm pkg hpkg]
      exact hpm

/-- Witness for C7: the one package the bun environment lists is
attributed to bun. -/
theorem claim7_witness :
    ({ name := "left-pad", version := "1.0.0", pm := PackageManager.bun } : GlobalPackage).pm
      = PackageManager.bun :=
  claim7_manager_attribution.1 envBunOne PackageManager.bun _ (by decide)

/-- C9.  For every manager and environment, upgradePackages with an
empty name list returns immediately with success and issues no shell
command. -/
theorem claim9_empty_upgrade_is_noop (env : PmEnv) (pm : PackageManager) :
    upgradePackages env pm [] = (Except.ok (), []) := rfl

/-! ### Claims C3 and C5 -/

theorem upgradeStep_attempts (env : PmEnv) (st : UpgradeState)
    (group : PackageManager × List PackageWithLatest) :
    (upgradeStep env st group).attempts
      = st.attempts ++ [(group.1, group.2.map (fun p => p.name))] := by
  unfold upgradeStep
  rcases h : (upgradePackages env group.1 (group.2.map (fun p => p.name))).1 with e | u <;>
    simp [h]

theorem runUpgradeLoop_attempts_general (env : PmEnv) :
    ∀ (groups : List (PackageManager × List PackageWithLatest)) (st : UpgradeState),
      (groups.foldl (upgradeStep env) st).attempts
        = st.attempts ++ groups.map (fun g => (g.1, g.2.map (fun p => p.name))) := by
  intro groups
  induction groups with
  | nil => intro st; simp
  | cons g gs ih =>
    intro st
    simp only [List.foldl_cons, List.map_cons]
    rw [ih (upgradeStep env st g), upgradeStep_attempts]
    simp

/-- C3.  The upgrade loop invokes upgradePackages exactly once per
group of the partition, in order, whatever the exec collaborator
returns: a thrown failure in one manager's batched command never
prevents the remaining groups from being attempted. -/
theorem claim3_all_groups_attempted (env : PmEnv)
    (groups : List (PackageManager × List PackageWithLatest)) :
    (runUpgradeLoop env groups).attempts
      = groups.map (fun g => (g.1, g.2.map (fun p => p.name))) := by
  unfold runUpgradeLoop
  rw [runUpgradeLoop_attempts_general]
  rfl

/-- C5.  getLatestVersion returns null whenever the request rejects,
the response status is not ok, the body fails to parse, or the body
lacks a version field; the Option return type records that no
exception escapes. -/
theorem claim5_lookup_failure_absent (fetch : String → Except String FetchResponse)
    (packageName : String)
    (h : (∃ e, fetch (registryUrl packageName) = .error e)
      ∨ (∃ r, fetch (registryUrl packageName) = .ok r ∧ r.ok = false)
      ∨ (∃ r e, fetch (registryUrl packageName) = .ok r ∧ r.json = .error e)
      ∨ (∃ r d, fetch (registryUrl packageName) = .ok r ∧ r.json = .ok d ∧ d.version = none)) :
    getLatestVersion fetch packageName = none := by
  unfold getLatestVersion
  rcases h with ⟨e, he⟩ | ⟨r, hr, hok⟩ | ⟨r, e, hr, hj⟩ | ⟨r, d, hr, hj, hv⟩
  · simp [he]
  · simp [hr, hok]
  · simp [hr, hj]
  · simp [hr, hj, hv]

/-- Witness for C5: a rejecting fetch collaborator yields null. -/
theorem claim5_witness : getLatestVersion fetchNetworkFail "left-pad" = none :=
  claim5_lookup_failure_absent fetchNetworkFail "left-pad"
    (Or.inl ⟨"network failure", rfl⟩)

/-! ### Claims C6 and C2: the orchestrator -/

/-- C6.  When the run reaches the Selecting state (managers, packages
and updates all nonempty) and the user cancels the multi-select,
selects nothing, or cancels or declines the confirmation, the run
exits with code 0 having invoked no upgradePackages call and issued no
upgrade shell command. -/
theorem claim6_cancel_before_upgrade (env : CliEnv)
    (h1 : runDetected env ≠ [])
    (h2 : runAllPackages env ≠ [])
    (h3 : runUpdatable env ≠ [])
    (h4 : env.multiselect (runUpdatable env) = PromptResult.cancel
      ∨ env.multiselect (runUpdatable env) = PromptResult.value []
      ∨ ∃ sel, env.multiselect (runUpdatable env) = PromptResult.value sel ∧ sel ≠ []
          ∧ (env.confirm sel.length = PromptResult.cancel
            ∨ env.confirm sel.length = PromptResult.value false)) :
    (run env).exitCode = 0 ∧ (run env).attempts = [] ∧ (run env).commands = [] := by
  have n1 : ¬((runDetected env).length = 0) := by
    simpa [List.length_eq_zero] using h1
  have n2 : ¬((runAllPackages env).length = 0) := by
    simpa [List.length_eq_zero] using h2
  have n3 : ¬((runUpdatable env).length = 0) := by
    simpa [List.length_eq_zero] using h3
  unfold run
  rw [if_neg n1, if_neg n2, if_neg n3]
  rcases h4 with hms | hms | ⟨sel, hsel, hne, hcf⟩
  · rw [hms]
    exact ⟨rfl, rfl, rfl⟩
  · rw [hms]
    simp
  · simp only [hsel]
    have nsel : ¬(sel.length = 0) := by
      simpa [List.length_eq_zero] using hne
    rw [if_neg nsel]
    rcases hcf with hc | hc
    · rw [hc]
      exact ⟨rfl, rfl, rfl⟩
    · rw [hc]
      simp

/-- Witness for C6: an environment with one updatable npm package
where the user cancels the multi-select aborts with exit code 0 and
zero upgrade activity. -/
theorem claim6_witness :
    (run envCancelSelect).exitCode = 0 ∧ (run envCancelSelect).attempts = []
      ∧ (run envCancelSelect).commands = [] :=
  claim6_cancel_before_upgrade envCancelSelect (by decide) (by decide) (by decide)
    (Or.inl (by decide))

/-- C2.  The kly upgrade tool's report satisfies the claim (success
iff no group failed, failed listing each manager with its error), but
on the same failing input the clack CLI run logs the npm failure and
still closes with the unconditional success outro: the concrete
evaluation below exhibits the divergence. -/
theorem claim2_cli_outro_contradicts_failure :
    (run envUpgradeFail).loggedErrors = ["npm: boom"]
    ∧ (run envUpgradeFail).outro = "Successfully upgraded all selected packages!"
    ∧ (run envUpgradeFail).attempts = [(PackageManager.npm, ["left-pad"])]
    ∧ (toolUpgradeAndReport envUpgradeFail.toPmEnv (runUpdatable envUpgradeFail)).success = false
    ∧ (toolUpgradeAndReport envUpgradeFail.toPmEnv (runUpdatable envUpgradeFail)).failed
        = ["npm: boom"] := by
  refine ⟨?_, ?_, ?_, ?_, ?_⟩ <;> decide
